import Mathlib

/-!
# A shallow embedding of the `DynamicBuffer` class (node-dynamic-buffer)

The TypeScript class `DynamicBuffer` (src/dynamicBuffer.ts) is modelled as a
Lean structure.  The underlying Node `Buffer` is modelled as a `List ℕ` of
bytes (an empty list models absent storage: post-construction, the internal
buffer is `undefined` iff the allocated size is `0`).  Character encoding is an
opaque codec outside the spec's scope, so string data is modelled directly as
its encoded byte list; `decode` is the identity on byte lists.  JavaScript
numbers that only ever hold integers are modelled as `ℤ` (or `ℕ` where the
source guarantees non-negativity), and the growth factor as `ℚ`.
-/

instance {ε α : Type} [DecidableEq ε] [DecidableEq α] :
    DecidableEq (Except ε α)
  | .error e, .error f =>
    if h : e = f then .isTrue (by rw [h])
    else .isFalse fun hc => h (Except.error.inj hc)
  | .error _, .ok _ => .isFalse fun hc => Except.noConfusion hc
  | .ok _, .error _ => .isFalse fun hc => Except.noConfusion hc
  | .ok a, .ok b =>
    if h : a = b then .isTrue (by rw [h])
    else .isFalse fun hc => h (Except.ok.inj hc)

/-- Model of `buffer.constants.MAX_LENGTH` (Node on 64-bit: `2^32`). -/
def MAX_LENGTH : ℕ := 2 ^ 32

/-- The default resize factor `0.75` (written as the raw rational `3/4` so
that it evaluates by kernel reduction). -/
def DefaultResizeFactor : ℚ := ⟨3, 4, by norm_num, by norm_num⟩

lemma DefaultResizeFactor_eq : DefaultResizeFactor = 3 / 4 := by
  show Rat.mk' 3 4 = 3 / 4
  rw [Rat.mk'_eq_divInt, Rat.divInt_eq_div]; norm_num

/-- A JavaScript number that may be `NaN`; used for the `factor` option,
whose source code checks `Number.isNaN`. -/
inductive JSNum where
  | nan : JSNum
  | val (q : ℚ) : JSNum
deriving DecidableEq

/-- JavaScript truthiness of a number: `NaN` and `0` are falsy. -/
def JSNum.truthy : JSNum → Bool
  | .nan => false
  | .val q => decide (q ≠ 0)

/-- Errors thrown by the class (`Error('Invalid buffer size')`,
`Error('Invalid factor')`, `Error('Buffer size is overflow')`, `RangeError`,
`TypeError`). -/
inductive BufError where
  | invalidSize : BufError
  | invalidFactor : BufError
  | overflow : BufError
  | rangeError : BufError
  | typeError : BufError
deriving DecidableEq

/-- The state of a `DynamicBuffer` object: internal storage `buffer`
(`[]` models an absent buffer), allocated `size`, number of `used` bytes,
resize `factor` and fill value. -/
structure DynamicBuffer where
  buffer : List ℕ
  size : ℕ
  used : ℕ
  factor : ℚ
  fillVal : ℕ
deriving DecidableEq

/-- The constructor options object `{ size?, factor?, fill? }`
(the `encoding` option only parameterises the opaque codec). -/
structure DBOptions where
  sizeOpt : Option ℤ
  factorOpt : Option JSNum
  fillOpt : Option ℕ
deriving DecidableEq

namespace DynamicBuffer

/-- Well-formedness of a buffer state: the storage really has `size` bytes,
`used` stays within it, the factor is positive, and `size` respects the
platform maximum.  These all hold for freshly constructed objects. -/
def WF (s : DynamicBuffer) : Prop :=
  s.buffer.length = s.size ∧ s.used ≤ s.size ∧ 0 < s.factor ∧ s.size ≤ MAX_LENGTH

instance (s : DynamicBuffer) : Decidable s.WF := by
  unfold WF; infer_instance

/-- `Buffer.alloc(newSize, fill)` followed by
`oldBuffer.copy(newBuffer, 0, 0, used)` and the field updates of
`resize(newSize)`.  `Buffer.copy` copies
`min(used, source length, destination length)` bytes. -/
def resize (s : DynamicBuffer) (newSize : ℕ) : DynamicBuffer :=
  let fresh := List.replicate newSize s.fillVal
  let copied :=
    if s.buffer ≠ [] ∧ 0 < s.used then
      let n := min s.used (min s.buffer.length newSize)
      s.buffer.take n ++ fresh.drop n
    else fresh
  { s with buffer := copied, size := newSize }

/-- The new-size computation of `ensureSize` when growth happens:
`max(expectSize, ceil(size * (1 + factor)))`, clamped down to `MAX_LENGTH`. -/
def newSizeCode (s : DynamicBuffer) (expectSize : ℕ) : ℕ :=
  (let sizeWithFactor : ℤ := ⌈(s.size : ℚ) * (1 + s.factor)⌉
   let newSize : ℤ :=
     if sizeWithFactor < (expectSize : ℤ) then expectSize else sizeWithFactor
   if (MAX_LENGTH : ℤ) < newSize then (MAX_LENGTH : ℤ) else newSize).toNat

/-- `ensureSize(expectSize)`: no-op when the current size suffices, overflow
error past `MAX_LENGTH`, otherwise resize to `newSizeCode`.
Returns the result value paired with the state at return/throw time. -/
def ensureSize (s : DynamicBuffer) (expectSize : ℕ) :
    Except BufError Unit × DynamicBuffer :=
  if expectSize ≤ s.size then (.ok (), s)
  else if MAX_LENGTH < expectSize then (.error .overflow, s)
  else (.ok (), s.resize (s.newSizeCode expectSize))

/-- The `lengthToWrite` computation of `writeData`: the optional `length`
argument is used only when `0 ≤ length ≤ data.length`; otherwise the full
data length is written. -/
def effLen (data : List ℕ) (lenOpt : Option ℤ) : ℕ :=
  match lenOpt with
  | some l => if 0 ≤ l ∧ l ≤ (data.length : ℤ) then l.toNat else data.length
  | none => data.length

/-- Node's `Buffer.write(data, offset, len)` on a raw byte buffer: writes at
most `len` bytes of `data`, truncated at the end of the buffer, and returns
the number of bytes written. -/
def bufWrite (buf data : List ℕ) (offset len : ℕ) : ℕ × List ℕ :=
  let count := min len (buf.length - offset)
  (count, buf.take offset ++ data.take count ++ buf.drop (offset + count))

/-- `writeData(data, offset, length?)`: clamp the length, return `0`
immediately for a zero-length write, otherwise grow via `ensureSize` and
write the bytes.  (The `TypeError` branch for non-string data is unreachable
here because `data` is a byte list by typing.) -/
def writeData (s : DynamicBuffer) (data : List ℕ) (offset : ℕ)
    (lenOpt : Option ℤ) : Except BufError ℕ × DynamicBuffer :=
  let lengthToWrite := effLen data lenOpt
  if lengthToWrite = 0 then (.ok 0, s)
  else
    match s.ensureSize (lengthToWrite + offset) with
    | (.error e, s1) => (.error e, s1)
    | (.ok _, s1) =>
      let r := bufWrite s1.buffer data offset lengthToWrite
      (.ok r.1, { s1 with buffer := r.2 })

/-- `append(data, length?)`: write at the current `used` offset, then
`used += count`. -/
def append (s : DynamicBuffer) (data : List ℕ) (lenOpt : Option ℤ) :
    Except BufError ℕ × DynamicBuffer :=
  match s.writeData data s.used lenOpt with
  | (.error e, s1) => (.error e, s1)
  | (.ok count, s1) => (.ok count, { s1 with used := s1.used + count })

/-- `write(data, offset = 0, length?)`: reject a negative offset with a
`RangeError`, write at `offset`, then set `used = offset + count`. -/
def write (s : DynamicBuffer) (data : List ℕ) (offset : ℤ)
    (lenOpt : Option ℤ) : Except BufError ℕ × DynamicBuffer :=
  if offset < 0 then (.error .rangeError, s)
  else
    match s.writeData data offset.toNat lenOpt with
    | (.error e, s1) => (.error e, s1)
    | (.ok count, s1) => (.ok count, { s1 with used := offset.toNat + count })

/-- `fill(value, offset = 0, end = length)`: silently return when there is no
storage, nothing is used, or the span is empty; otherwise `checkRange` the
offsets against the used region (throwing `RangeError`) and fill the span.
The fill value is a single byte (string/Buffer fill values delegate to the
same storage primitive). -/
def fill (s : DynamicBuffer) (value : ℕ) (offset en : ℤ) :
    Except BufError Unit × DynamicBuffer :=
  if s.buffer = [] ∨ s.used = 0 ∨ en - offset ≤ 0 then (.ok (), s)
  else if offset < 0 ∨ (s.used : ℤ) - 1 < offset then (.error .rangeError, s)
  else if en < 0 ∨ (s.used : ℤ) < en then (.error .rangeError, s)
  else
    let filled := s.buffer.take offset.toNat ++
      List.replicate (en.toNat - offset.toNat) value ++ s.buffer.drop en.toNat
    (.ok (), { s with buffer := filled })

/-- The `while` loop of `compare(target, targetStart, targetEnd, sourceStart,
sourceEnd)` together with the two trailing conditionals.  `thisBuf`/`otherBuf`
are the raw storages, `thisLen`/`otherLen` the `length` getters (used bytes)
of the two objects, `i`/`j` the loop counters. -/
def compareLoop (thisBuf otherBuf : List ℕ) (thisLen otherLen : ℕ)
    (i j tEnd sEnd : ℕ) : ℤ :=
  if i < tEnd ∧ j < sEnd ∧ i < otherLen ∧ j < thisLen then
    if thisBuf.getD j 0 ≠ otherBuf.getD i 0 then
      if otherBuf.getD i 0 < thisBuf.getD j 0 then 1 else -1
    else compareLoop thisBuf otherBuf thisLen otherLen (i + 1) (j + 1) tEnd sEnd
  else if i < tEnd ∨ (i < otherLen ∧ otherLen < tEnd) then -1
  else if j < sEnd ∨ (j < thisLen ∧ thisLen < sEnd) then 1
  else 0
termination_by tEnd - i

/-- `this.compare(target)` with all range arguments left at their defaults
(`targetStart = 0`, `targetEnd = target.length`, `sourceStart = 0`,
`sourceEnd = this.length`). -/
def compare (a b : DynamicBuffer) : ℤ :=
  compareLoop a.buffer b.buffer a.used b.used 0 0 b.used a.used

/-- Reference lexicographic comparison of two byte lists (`-1`: first sorts
first; `1`: first sorts last; a strict front part of the other sorts first). -/
def lexComp : List ℕ → List ℕ → ℤ
  | [], [] => 0
  | [], _ :: _ => -1
  | _ :: _, [] => 1
  | x :: xs, y :: ys =>
    if x ≠ y then (if y < x then 1 else -1) else lexComp xs ys

/-- A search value for `indexOf`/`includes` after resolving a
`DynamicBuffer` argument to its used slice: either a byte sequence (string,
`Buffer`, `Uint8Array`, or resolved `DynamicBuffer`) or a single numeric
byte value. -/
inductive SearchValue where
  | bytes (l : List ℕ) : SearchValue
  | byte (n : ℕ) : SearchValue
deriving DecidableEq

/-- The byte sequence a search value stands for (Node interprets a numeric
needle as an unsigned 8-bit value). -/
def SearchValue.toBytes : SearchValue → List ℕ
  | .bytes l => l
  | .byte n => [n % 256]

/-- The byte-offset resolution inside Node's `Buffer.indexOf`: a negative
offset counts from the end (clamping at 0), a non-negative one clamps to the
buffer length. -/
def resolveStart (len : ℕ) (byteOffset : ℤ) : ℕ :=
  if 0 ≤ byteOffset then min byteOffset.toNat len
  else if 0 ≤ (len : ℤ) + byteOffset then ((len : ℤ) + byteOffset).toNat
  else 0

/-- Node's `Buffer.indexOf(search, byteOffset)` on a raw byte buffer: the
result is the first match position at or after the resolved offset, `-1` if
none (an empty needle matches at the resolved offset itself). -/
def bufIndexOf (buf : List ℕ) (v : SearchValue) (byteOffset : ℤ) : ℤ :=
  match (List.range (buf.length + 1)).find? (fun i =>
      decide (resolveStart buf.length byteOffset ≤ i ∧
        i + v.toBytes.length ≤ buf.length ∧
        (buf.drop i).take v.toBytes.length = v.toBytes)) with
  | some i => (i : ℤ)
  | none => -1

/-- `indexOf(value, byteOffset = 0)` via `indexOfWithDir(true, ...)`: an
empty or absent region answers `0` for an empty (string/object) needle and
`-1` otherwise; otherwise the start offset is resolved (negative counts from
the end, clamped above by the used length) and the search runs over the used
slice of the storage. -/
def indexOf (s : DynamicBuffer) (v : SearchValue) (byteOffset : ℤ) : ℤ :=
  if s.buffer = [] ∨ s.used = 0 then
    match v with
    | .bytes [] => 0
    | _ => -1
  else
    let start : ℤ :=
      if 0 ≤ byteOffset then byteOffset else (s.used : ℤ) + byteOffset
    let start : ℤ := if (s.used : ℤ) ≤ start then (s.used : ℤ) else start
    bufIndexOf (s.buffer.take s.used) v start

/-- `calculateOffsets(start?, end?)`: `start` falsy (0/undefined/NaN) or
negative resolves to 0 and is capped at `used`; `end` undefined or above
`used` resolves to `used`. -/
def calculateOffsets (s : DynamicBuffer) (startOpt endOpt : Option ℤ) :
    ℤ × ℤ :=
  let startOffset : ℤ :=
    match startOpt with
    | none => 0
    | some v => if v = 0 ∨ v < 0 then 0 else if (s.used : ℤ) < v then s.used else v
  let endOffset : ℤ :=
    match endOpt with
    | none => (s.used : ℤ)
    | some v => if (s.used : ℤ) < v then (s.used : ℤ) else v
  (startOffset, endOffset)

/-- Node's `buf.toString(encoding, start, end)` on a raw byte buffer, with
the opaque decoding step modelled as the identity on the byte slice: both
bounds are clamped to `[0, length]` and an empty slice decodes to the empty
result. -/
def nodeToString (buf : List ℕ) (st en : ℤ) : List ℕ :=
  (buf.take (min en.toNat buf.length)).drop st.toNat

/-- `toString(encoding, start = 0, end = used)` (the byte content of the
decoded result; `none` models an omitted argument): empty when the region is
empty, when the clamped span is empty, or when the span is degenerate. -/
def toText (s : DynamicBuffer) (startOpt endOpt : Option ℤ) : List ℕ :=
  if s.buffer = [] ∨ s.used = 0 then []
  else
    let r := s.calculateOffsets startOpt endOpt
    if r.2 - r.1 = 0 then []
    else nodeToString s.buffer r.1 r.2

end DynamicBuffer

/-- The spec's shared clamping rule for the start offset, stated in the
spec's own words: "`start` below 0 or unspecified → 0; `start` above `used`
→ `used`".  Used to compare against the code's `calculateOffsets`. -/
def specResolvedStart (used : ℕ) (startOpt : Option ℤ) : ℤ :=
  match startOpt with
  | none => 0
  | some v => if v < 0 then 0 else if (used : ℤ) < v then used else v

/-- The spec's shared clamping rule for the end offset, in the spec's words:
"`end` unspecified or above `used` → `used`". -/
def specResolvedEnd (used : ℕ) (endOpt : Option ℤ) : ℤ :=
  match endOpt with
  | none => used
  | some v => if (used : ℤ) < v then used else v

/-- The resolved initial size of the constructor: the `size` option (default
16), raised to the data length when non-empty initial data is longer. -/
def initialSize (dataOpt : Option (List ℕ)) (optsOpt : Option DBOptions) : ℤ :=
  let size0 : ℤ :=
    match optsOpt with
    | some o => match o.sizeOpt with | some v => v | none => 16
    | none => 16
  match dataOpt with
  | some d => if d ≠ [] ∧ size0 < (d.length : ℤ) then d.length else size0
  | none => size0

/-- The factor resolution `options?.factor || DefaultResizeFactor` of the
constructor: JavaScript `||`, so the falsy values `0` and `NaN` fall back to
the default. -/
def resolveFactor (optsOpt : Option DBOptions) : JSNum :=
  match optsOpt.bind DBOptions.factorOpt with
  | some f => if f.truthy then f else .val DefaultResizeFactor
  | none => .val DefaultResizeFactor

/-- The constructor `new DynamicBuffer(data?, options?)`: resolve the size,
check it, resolve `fill` and `factor`, check the factor (`Number.isNaN` or
non-positive), allocate when `size > 0`, and append the initial data. -/
def DynamicBuffer.create (dataOpt : Option (List ℕ))
    (optsOpt : Option DBOptions) : Except BufError DynamicBuffer :=
  let size1 := initialSize dataOpt optsOpt
  if size1 < 0 ∨ (MAX_LENGTH : ℤ) < size1 then .error .invalidSize
  else
    let fillVal := (optsOpt.bind DBOptions.fillOpt).getD 0
    match resolveFactor optsOpt with
    | .nan => .error .invalidFactor
    | .val q =>
      if q ≤ 0 then .error .invalidFactor
      else
        let size := size1.toNat
        let buffer := if 0 < size then List.replicate size fillVal else []
        let s : DynamicBuffer := ⟨buffer, size, 0, q, fillVal⟩
        match dataOpt with
        | some d =>
          if d ≠ [] then
            match s.append d none with
            | (.ok _, s1) => .ok s1
            | (.error e, _) => .error e
          else .ok s
        | none => .ok s

/-- The state produced by `new DynamicBuffer()` with no arguments:
size 16, nothing used, factor 0.75, zero-filled storage. -/
def dflt : DynamicBuffer := ⟨List.replicate 16 0, 16, 0, DefaultResizeFactor, 0⟩


/-- A buffer of size 10 with the default factor, as in the spec's growth
scenario. -/
def s10 : DynamicBuffer := ⟨List.replicate 10 0, 10, 0, DefaultResizeFactor, 0⟩

/-- A buffer with 5 used bytes (content `[1, 2, 3, 4, 5]`) in a capacity-16
storage, as in the spec's clamping scenario. -/
def s5 : DynamicBuffer :=
  ⟨[1, 2, 3, 4, 5] ++ List.replicate 11 0, 16, 5, DefaultResizeFactor, 0⟩

namespace DynamicBuffer

lemma resize_buffer_length (s : DynamicBuffer) (n : ℕ) :
    (s.resize n).buffer.length = n := by
  simp only [resize]
  split_ifs with h
  · simp only [List.length_append, List.length_take, List.length_drop,
      List.length_replicate]
    rcases h with ⟨hne, -⟩
    have : 0 < s.buffer.length := List.length_pos.mpr hne
    omega
  · simp

lemma newSizeCode_eq (s : DynamicBuffer) (e : ℕ) :
    s.newSizeCode e =
      min MAX_LENGTH (max e ⌈(s.size : ℚ) * (1 + s.factor)⌉.toNat) := by
  simp only [newSizeCode]
  split_ifs <;> omega

/-- Anatomy of `ensureSize`: the three exits of the routine. -/
lemma ensureSize_cases (s : DynamicBuffer) (e : ℕ) :
    (e ≤ s.size ∧ s.ensureSize e = (.ok (), s)) ∨
    (s.size < e ∧ MAX_LENGTH < e ∧ s.ensureSize e = (.error .overflow, s)) ∨
    (s.size < e ∧ e ≤ MAX_LENGTH ∧
      s.ensureSize e = (.ok (), s.resize (s.newSizeCode e))) := by
  unfold ensureSize
  split_ifs with h1 h2
  · exact Or.inl ⟨h1, rfl⟩
  · exact Or.inr (Or.inl ⟨by omega, h2, rfl⟩)
  · exact Or.inr (Or.inr ⟨by omega, by omega, rfl⟩)

lemma ensureSize_ok (s : DynamicBuffer) (e : ℕ) (r : Unit) (s1 : DynamicBuffer)
    (h : s.ensureSize e = (.ok r, s1)) :
    e ≤ s1.size ∧ s1.used = s.used ∧
      (s.buffer.length = s.size → s1.buffer.length = s1.size) := by
  rcases ensureSize_cases s e with ⟨hle, heq⟩ | ⟨-, -, heq⟩ | ⟨-, hmax, heq⟩
  · rw [heq] at h
    obtain rfl : s1 = s := (congrArg Prod.snd h).symm
    exact ⟨hle, rfl, fun hb => hb⟩
  · rw [heq] at h
    exact absurd (congrArg Prod.fst h) (by simp)
  · rw [heq] at h
    obtain rfl : s1 = s.resize (s.newSizeCode e) := (congrArg Prod.snd h).symm
    refine ⟨?_, rfl, fun _ => ?_⟩
    · show e ≤ (s.resize (s.newSizeCode e)).size
      have := s.newSizeCode_eq e
      show e ≤ s.newSizeCode e
      omega
    · rw [resize_buffer_length]; rfl

lemma writeData_ok_count (s : DynamicBuffer) (data : List ℕ) (off : ℕ)
    (lenOpt : Option ℤ) (c : ℕ) (s1 : DynamicBuffer)
    (hlen : s.buffer.length = s.size)
    (h : s.writeData data off lenOpt = (.ok c, s1)) :
    c = effLen data lenOpt := by
  unfold writeData at h
  by_cases h0 : effLen data lenOpt = 0
  · rw [if_pos h0] at h
    have := congrArg Prod.fst h
    simp only [Except.ok.injEq] at this
    omega
  · rw [if_neg h0] at h
    rcases hE : s.ensureSize (effLen data lenOpt + off) with ⟨r, s2⟩
    rw [hE] at h
    cases r with
    | error e => exact absurd (congrArg Prod.fst h) (by simp)
    | ok u =>
      have hc := congrArg Prod.fst h
      simp only [Except.ok.injEq] at hc
      obtain ⟨hge, -, hbl⟩ := ensureSize_ok s _ u s2 hE
      have hb2 : s2.buffer.length = s2.size := hbl hlen
      simp only [bufWrite] at hc
      omega

lemma writeData_overflow (s : DynamicBuffer) (data : List ℕ) (off : ℕ)
    (lenOpt : Option ℤ) (hs : s.size ≤ MAX_LENGTH)
    (h0 : effLen data lenOpt ≠ 0)
    (hov : MAX_LENGTH < off + effLen data lenOpt) :
    s.writeData data off lenOpt = (.error .overflow, s) := by
  unfold writeData
  rw [if_neg h0]
  have hE : s.ensureSize (effLen data lenOpt + off) = (.error .overflow, s) := by
    unfold ensureSize
    rw [if_neg (by omega), if_pos (by omega)]
  rw [hE]

end DynamicBuffer

lemma ceil_ten_default :
    ⌈((10 : ℕ) : ℚ) * (1 + DefaultResizeFactor)⌉ = 18 := by
  rw [DefaultResizeFactor_eq, Int.ceil_eq_iff]
  push_cast
  norm_num

/-- C2: `ensureSize` is a no-op when the capacity already suffices; otherwise
(with the required size within `MAX_LENGTH`) the new capacity is
`max(required, ceil(size * (1 + factor)))` clamped down to `MAX_LENGTH`, the
first `used` bytes of the old storage are copied and the rest of the new
storage is the fill value; growing a capacity-10, factor-0.75 region to hold
11 bytes yields capacity 18. -/
theorem C2_growth_policy :
    (∀ (s : DynamicBuffer) (req : ℕ), req ≤ s.size →
      s.ensureSize req = (.ok (), s)) ∧
    (∀ (s : DynamicBuffer) (req : ℕ), s.WF → s.size < req → req ≤ MAX_LENGTH →
      s.ensureSize req = (.ok (),
        { s with
          buffer := s.buffer.take s.used ++ List.replicate
            (min MAX_LENGTH (max req ⌈(s.size : ℚ) * (1 + s.factor)⌉.toNat)
              - s.used) s.fillVal,
          size :=
            min MAX_LENGTH (max req ⌈(s.size : ℚ) * (1 + s.factor)⌉.toNat) })) ∧
    s10.ensureSize 11 =
      (.ok (), { s10 with buffer := List.replicate 18 0, size := 18 }) := by
  refine ⟨?_, ?_, ?_⟩
  · intro s req hle
    unfold DynamicBuffer.ensureSize
    rw [if_pos hle]
  · intro s req hwf hlt hle
    obtain ⟨hbl, hus, -, -⟩ := hwf
    unfold DynamicBuffer.ensureSize
    rw [if_neg (by omega), if_neg (by omega), DynamicBuffer.newSizeCode_eq]
    set n := min MAX_LENGTH (max req ⌈(s.size : ℚ) * (1 + s.factor)⌉.toNat)
      with hn
    have hreq : req ≤ n := by omega
    have hun : s.used ≤ n := by omega
    simp only [DynamicBuffer.resize, Prod.mk.injEq, true_and]
    split_ifs with h
    · rcases h with ⟨-, -⟩
      rw [List.drop_replicate]
      have hmin : min s.used (min s.buffer.length n) = s.used := by omega
      rw [hmin]
    · push_neg at h
      by_cases hne : s.buffer = []
      · have h0 : s.used = 0 := by
          have := hbl ▸ hus
          simp [hne] at this ⊢
          omega
        simp [hne, h0]
      · have h0 : s.used = 0 := by
          have := h hne
          omega
        simp [h0]
  · have h18 : s10.newSizeCode 11 = 18 := by
      rw [DynamicBuffer.newSizeCode_eq]
      have : (s10.size : ℚ) = ((10 : ℕ) : ℚ) := by norm_num [s10]
      rw [show s10.factor = DefaultResizeFactor from rfl, this,
        ceil_ten_default]
      decide
    unfold DynamicBuffer.ensureSize
    rw [if_neg (by norm_num [s10]), if_neg (by norm_num [s10, MAX_LENGTH]), h18]
    decide

/-- Witness for C2: growing the capacity-10 default-factor region to hold 11
bytes through the growth branch of the theorem yields capacity 18. -/
theorem C2_growth_policy_witness :
    s10.ensureSize 11 =
      (.ok (), { s10 with
        buffer := s10.buffer.take s10.used ++ List.replicate
          (min MAX_LENGTH (max 11 ⌈(s10.size : ℚ) * (1 + s10.factor)⌉.toNat)
            - s10.used) s10.fillVal,
        size :=
          min MAX_LENGTH (max 11 ⌈(s10.size : ℚ) * (1 + s10.factor)⌉.toNat) }) :=
  C2_growth_policy.2.1 s10 11 (by decide) (by decide) (by decide)

/-- C3: `write(data, offset)` rejects a negative offset with a `RangeError`
and leaves the region unchanged; on success the used length becomes exactly
`offset + bytesWritten`. -/
theorem C3_write_offset :
    ∀ (s : DynamicBuffer) (data : List ℕ) (offset : ℤ) (lenOpt : Option ℤ),
      (offset < 0 → s.write data offset lenOpt = (.error .rangeError, s)) ∧
      (∀ (count : ℕ) (s1 : DynamicBuffer),
        s.write data offset lenOpt = (.ok count, s1) →
        0 ≤ offset ∧ (s1.used : ℤ) = offset + count) := by
  intro s data offset lenOpt
  constructor
  · intro h
    unfold DynamicBuffer.write
    rw [if_pos h]
  · intro count s1 h
    by_cases h0 : offset < 0
    · unfold DynamicBuffer.write at h
      rw [if_pos h0] at h
      exact absurd (congrArg Prod.fst h) (by simp)
    · refine ⟨by omega, ?_⟩
      unfold DynamicBuffer.write at h
      rw [if_neg h0] at h
      rcases hw : s.writeData data offset.toNat lenOpt with ⟨r, s2⟩
      rw [hw] at h
      cases r with
      | error e => exact absurd (congrArg Prod.fst h) (by simp)
      | ok c =>
        have hc : c = count := by
          have := congrArg Prod.fst h
          simpa using this
        have hs : s1 = { s2 with used := offset.toNat + c } :=
          (congrArg Prod.snd h).symm
        rw [hs, hc]
        show ((offset.toNat + count : ℕ) : ℤ) = offset + count
        push_cast
        omega

/-- Witness for C3: a negative offset yields a `RangeError` with the region
untouched, and a successful write of one byte at offset 2 ends with
`used = 3`. -/
theorem C3_write_offset_witness :
    dflt.write [65] (-1) none = (.error .rangeError, dflt) ∧
    (0 ≤ (2 : ℤ) ∧
      (((dflt.write [65] 2 none).2).used : ℤ) = 2 + 1) :=
  ⟨(C3_write_offset dflt [65] (-1) none).1 (by decide),
   (C3_write_offset dflt [65] 2 none).2 1
     ⟨[0, 0, 65] ++ List.replicate 13 0, 16, 3, DefaultResizeFactor, 0⟩
     (by decide)⟩

/-- C5 counterexample: `append("ABC", -1)` writes all 3 bytes — a negative
`length` argument is ignored, not clamped to 0. -/
theorem C5_counterexample :
    (dflt.append [65, 66, 67] (some (-1))).1 = .ok 3 ∧
    (dflt.append [65, 66, 67] (some (-1))).1 ≠ .ok 0 := by
  exact ⟨by decide, by decide⟩

/-- C5 (amended): the number of bytes a successful `append` writes is
`DynamicBuffer.effLen`: an explicit `length` with `0 ≤ length ≤ len(data)` caps the write
at `length` bytes; a negative or too-large `length` is ignored and the full
data length is written; an omitted `length` defaults to the full data
length.  In all cases at most `len(data)` bytes are written. -/
theorem C5_length_clamp :
    ∀ (s : DynamicBuffer) (data : List ℕ) (lenOpt : Option ℤ)
      (count : ℕ) (s1 : DynamicBuffer),
      s.buffer.length = s.size →
      s.append data lenOpt = (.ok count, s1) →
      count = DynamicBuffer.effLen data lenOpt ∧ count ≤ data.length := by
  intro s data lenOpt count s1 hlen h
  unfold DynamicBuffer.append at h
  rcases hw : s.writeData data s.used lenOpt with ⟨r, s2⟩
  rw [hw] at h
  cases r with
  | error e => exact absurd (congrArg Prod.fst h) (by simp)
  | ok c =>
    have hc : c = count := by
      have := congrArg Prod.fst h
      simpa using this
    subst hc
    have hcount := DynamicBuffer.writeData_ok_count s data s.used lenOpt c s2
      hlen hw
    refine ⟨hcount, ?_⟩
    rw [hcount]
    cases lenOpt with
    | none => simp [DynamicBuffer.effLen]
    | some l =>
      simp only [DynamicBuffer.effLen]
      split_ifs with hl
      · omega
      · exact le_rfl

/-- Witness for C5: appending `[65, 66]` with explicit length 1 writes
exactly `DynamicBuffer.effLen [65, 66] (some 1) = 1` byte. -/
theorem C5_length_clamp_witness :
    (1 : ℕ) = DynamicBuffer.effLen [65, 66] (some 1) ∧ (1 : ℕ) ≤ [65, 66].length :=
  C5_length_clamp dflt [65, 66] (some 1) 1
    ⟨65 :: List.replicate 15 0, 16, 1, DefaultResizeFactor, 0⟩
    (by decide) (by decide)

/-- C9 counterexample: a zero-byte write at an offset past `MAX_LENGTH`
succeeds (returning 0) instead of throwing, even though the required
capacity `offset + 0` exceeds `MAX_LENGTH` — and it corrupts `used`. -/
theorem C9_counterexample :
    (dflt.write [] ((MAX_LENGTH : ℤ) + 1) none).1 = .ok 0 ∧
    (dflt.write [] ((MAX_LENGTH : ℤ) + 1) none).2.used = MAX_LENGTH + 1 := by
  exact ⟨by decide, by decide⟩

/-- C9 (amended): an `append` or `write` whose required capacity
(offset plus a **non-zero** number of bytes to write) exceeds `MAX_LENGTH`
throws an overflow error and leaves the region exactly in its prior state. -/
theorem C9_overflow_unchanged :
    (∀ (s : DynamicBuffer) (data : List ℕ) (offset : ℤ) (lenOpt : Option ℤ),
      s.size ≤ MAX_LENGTH → 0 ≤ offset → DynamicBuffer.effLen data lenOpt ≠ 0 →
      MAX_LENGTH < offset.toNat + DynamicBuffer.effLen data lenOpt →
      s.write data offset lenOpt = (.error .overflow, s)) ∧
    (∀ (s : DynamicBuffer) (data : List ℕ) (lenOpt : Option ℤ),
      s.size ≤ MAX_LENGTH → DynamicBuffer.effLen data lenOpt ≠ 0 →
      MAX_LENGTH < s.used + DynamicBuffer.effLen data lenOpt →
      s.append data lenOpt = (.error .overflow, s)) := by
  constructor
  · intro s data offset lenOpt hs hoff h0 hov
    unfold DynamicBuffer.write
    rw [if_neg (by omega)]
    rw [DynamicBuffer.writeData_overflow s data offset.toNat lenOpt hs h0 hov]
  · intro s data lenOpt hs h0 hov
    unfold DynamicBuffer.append
    rw [DynamicBuffer.writeData_overflow s data s.used lenOpt hs h0 hov]

/-- Witness for C9: writing one byte at offset `MAX_LENGTH` fails with the
overflow error and returns the region unchanged. -/
theorem C9_overflow_unchanged_witness :
    dflt.write [65] (MAX_LENGTH : ℤ) none = (.error .overflow, dflt) :=
  C9_overflow_unchanged.1 dflt [65] (MAX_LENGTH : ℤ) none
    (by decide) (by decide) (by decide) (by decide)

/-- C1: after `write("", 17)` on a default-constructed buffer the call
succeeds with `used = 17` while the capacity is still 16, violating
`0 ≤ used ≤ capacity`: the zero-length write path skips `ensureSize` but
still executes `used = offset + count`. -/
theorem C1_invariant_broken :
    DynamicBuffer.create none none = .ok dflt ∧
    (dflt.write [] 17 none).1 = .ok 0 ∧
    (dflt.write [] 17 none).2.used = 17 ∧
    (dflt.write [] 17 none).2.size = 16 ∧
    ¬ ((dflt.write [] 17 none).2.used ≤ (dflt.write [] 17 none).2.size) := by
  refine ⟨by decide, by decide, by decide, by decide, by decide⟩

/-- C4 counterexample: constructing with `factor: 0` (and likewise `NaN`)
succeeds and produces the default buffer — `options?.factor || default`
treats the falsy values `0` and `NaN` as unsupplied, so the `factor <= 0`
check never sees them. -/
theorem C4_counterexample :
    DynamicBuffer.create none (some ⟨none, some (.val 0), none⟩) = .ok dflt ∧
    DynamicBuffer.create none (some ⟨none, some .nan, none⟩) = .ok dflt ∧
    dflt.factor = DefaultResizeFactor := by
  exact ⟨by decide, by decide, by decide⟩

/-- C4 (amended): construction fails (`Invalid factor`) exactly for a
strictly negative supplied factor (when the size check passes); a factor of
`0` or `NaN` is falsy, hence treated as unsupplied and replaced by the
default `0.75`, so construction behaves as if no factor had been given. -/
theorem C4_factor_validation :
    (∀ (dataOpt : Option (List ℕ)) (o : DBOptions) (q : ℚ),
      o.factorOpt = some (.val q) → q < 0 →
      ¬ (initialSize dataOpt (some o) < 0 ∨
          (MAX_LENGTH : ℤ) < initialSize dataOpt (some o)) →
      DynamicBuffer.create dataOpt (some o) = .error .invalidFactor) ∧
    (∀ (dataOpt : Option (List ℕ)) (o : DBOptions),
      o.factorOpt = some (.val 0) ∨ o.factorOpt = some .nan →
      DynamicBuffer.create dataOpt (some o) =
        DynamicBuffer.create dataOpt (some { o with factorOpt := none })) := by
  constructor
  · intro dataOpt o q hf hq hguard
    have hr : resolveFactor (some o) = .val q := by
      simp [resolveFactor, hf, JSNum.truthy, ne_of_lt hq]
    unfold DynamicBuffer.create
    rw [if_neg hguard, hr]
    exact if_pos (le_of_lt hq)
  · intro dataOpt o hf
    have hL : resolveFactor (some o) = .val DefaultResizeFactor := by
      rcases hf with hf | hf <;> simp [resolveFactor, hf, JSNum.truthy]
    have hR : resolveFactor (some { o with factorOpt := none }) =
        .val DefaultResizeFactor := by
      simp [resolveFactor]
    unfold DynamicBuffer.create
    rw [hL, hR]
    rfl

/-- Witness for C4: a factor of `-1` makes construction fail with the
factor error. -/
theorem C4_factor_validation_witness :
    DynamicBuffer.create none (some ⟨none, some (.val (-1)), none⟩) =
      .error .invalidFactor :=
  C4_factor_validation.1 none ⟨none, some (.val (-1)), none⟩ (-1)
    rfl (by decide) (by decide)

/-- C10 counterexample: on a freshly constructed region (`used = 0`),
`fill(0, 5, 10)` has both explicit offsets far outside the used region yet
returns without any error — the `used == 0` early return precedes the range
checks. -/
theorem C10_counterexample :
    dflt.fill 0 5 10 = (.ok (), dflt) ∧ dflt.used = 0 := by
  exact ⟨by decide, by decide⟩

/-- C10 (amended): `fill(value, offset, end)` throws a `RangeError` for an
explicit out-of-bounds offset (`offset < 0`, `offset > used - 1`, `end < 0`,
or `end > used`) only when storage is present, `used > 0` and
`end - offset > 0`; when storage is absent, nothing is used, or the span is
empty, the call returns with no error and the region unchanged. -/
theorem C10_fill_bounds :
    (∀ (s : DynamicBuffer) (value : ℕ) (offset en : ℤ),
      s.buffer = [] ∨ s.used = 0 ∨ en - offset ≤ 0 →
      s.fill value offset en = (.ok (), s)) ∧
    (∀ (s : DynamicBuffer) (value : ℕ) (offset en : ℤ),
      s.buffer ≠ [] → s.used ≠ 0 → 0 < en - offset →
      (offset < 0 ∨ (s.used : ℤ) - 1 < offset ∨ en < 0 ∨ (s.used : ℤ) < en) →
      s.fill value offset en = (.error .rangeError, s)) := by
  constructor
  · intro s value offset en h
    unfold DynamicBuffer.fill
    rw [if_pos h]
  · intro s value offset en hb hu hspan hout
    unfold DynamicBuffer.fill
    rw [if_neg (by push_neg; exact ⟨hb, hu, by omega⟩)]
    by_cases h1 : offset < 0 ∨ (s.used : ℤ) - 1 < offset
    · rw [if_pos h1]
    · rw [if_neg h1, if_pos (by push_neg at h1; omega)]

/-- Witness for C10: filling `[-1, 3)` on a region with 5 used bytes throws
the `RangeError` (negative offset), and the empty-span call (`end ≤ offset`)
on the same region returns silently. -/
theorem C10_fill_bounds_witness :
    s5.fill 7 (-1) 3 = (.error .rangeError, s5) ∧
    s5.fill 7 4 2 = (.ok (), s5) :=
  ⟨C10_fill_bounds.2 s5 7 (-1) 3 (by decide) (by decide) (by decide)
      (by decide),
   C10_fill_bounds.1 s5 7 4 2 (by decide)⟩

namespace DynamicBuffer

lemma resolveStart_le (len : ℕ) (off : ℤ) : resolveStart len off ≤ len := by
  unfold resolveStart
  split_ifs <;> omega

lemma bufIndexOf_empty_ne (buf : List ℕ) (off : ℤ) :
    bufIndexOf buf (.bytes []) off ≠ -1 := by
  intro hbad
  unfold bufIndexOf at hbad
  rcases hfd : (List.range (buf.length + 1)).find? (fun i =>
      decide (resolveStart buf.length off ≤ i ∧
        i + (SearchValue.bytes []).toBytes.length ≤ buf.length ∧
        (buf.drop i).take (SearchValue.bytes []).toBytes.length =
          (SearchValue.bytes []).toBytes)) with _ | i
  · rw [List.find?_eq_none] at hfd
    have hle := resolveStart_le buf.length off
    refine hfd (resolveStart buf.length off) (List.mem_range.mpr (by omega)) ?_
    simp [SearchValue.toBytes] <;> omega
  · rw [hfd] at hbad
    simp at hbad

end DynamicBuffer

/-- C6: `indexOf` with an empty needle never answers `-1`, whatever the byte
offset; and on a region with no used bytes `indexOf` answers `0` for an
empty needle and `-1` for any non-empty needle (including single-byte
needles). -/
theorem C6_search_boundary :
    (∀ (s : DynamicBuffer) (off : ℤ), s.indexOf (.bytes []) off ≠ -1) ∧
    (∀ (s : DynamicBuffer) (v : DynamicBuffer.SearchValue) (off : ℤ),
      s.used = 0 →
      s.indexOf v off = if v = .bytes [] then 0 else -1) := by
  constructor
  · intro s off
    unfold DynamicBuffer.indexOf
    by_cases h : s.buffer = [] ∨ s.used = 0
    · rw [if_pos h]
      simp
    · rw [if_neg h]
      exact DynamicBuffer.bufIndexOf_empty_ne _ _
  · intro s v off h0
    unfold DynamicBuffer.indexOf
    rw [if_pos (Or.inr h0)]
    rcases v with l | n
    · rcases l with _ | ⟨a, t⟩ <;> simp
    · simp

/-- Witness for C6: on the fresh default region the single-byte needle `65`
is not found while the empty needle is found at 0. -/
theorem C6_search_boundary_witness :
    dflt.indexOf (.byte 65) 0 = -1 ∧ dflt.indexOf (.bytes []) 7 ≠ -1 :=
  ⟨by simpa using C6_search_boundary.2 dflt (.byte 65) 0 rfl,
   C6_search_boundary.1 dflt 7⟩

namespace DynamicBuffer

lemma lexComp_refl : ∀ xs : List ℕ, lexComp xs xs = 0
  | [] => rfl
  | x :: xs => by simp [lexComp, lexComp_refl xs]

lemma lexComp_antisymm :
    ∀ xs ys : List ℕ, (lexComp xs ys = -1 ↔ lexComp ys xs = 1)
  | [], [] => by simp [lexComp]
  | [], _ :: _ => by simp [lexComp]
  | _ :: _, [] => by simp [lexComp]
  | x :: xs, y :: ys => by
    by_cases h : x = y
    · subst h
      simpa [lexComp] using lexComp_antisymm xs ys
    · have h' : ¬ y = x := fun hc => h hc.symm
      simp only [lexComp, if_pos h, if_pos h', ne_eq, not_false_eq_true,
        if_true]
      constructor <;> intro hh <;> split_ifs at hh ⊢ <;> omega

lemma drop_take_cons (l : List ℕ) (m k : ℕ) (hk : k < m) (hm : m ≤ l.length) :
    (l.take m).drop k = l.getD k 0 :: (l.take m).drop (k + 1) := by
  have hlen : k < (l.take m).length := by simp; omega
  rw [List.drop_eq_getElem_cons hlen]
  congr 1
  rw [List.getElem_take]
  exact (List.getD_eq_getElem l 0 (by omega)).symm

lemma compareLoop_eq_lexComp (b1 b2 : List ℕ) (l1 l2 : ℕ)
    (h1 : l1 ≤ b1.length) (h2 : l2 ≤ b2.length) :
    ∀ (n k : ℕ), n = l2 - k → k ≤ l1 → k ≤ l2 →
      compareLoop b1 b2 l1 l2 k k l2 l1 =
        lexComp ((b1.take l1).drop k) ((b2.take l2).drop k) := by
  intro n
  induction n with
  | zero =>
    intro k hn hk1 hk2
    have hkl2 : k = l2 := by omega
    have hd2 : (b2.take l2).drop k = [] :=
      List.drop_eq_nil_of_le (by simp; omega)
    rw [compareLoop, if_neg (by omega), if_neg (by omega)]
    by_cases hk : k < l1
    · rw [if_pos (Or.inl hk)]
      rcases hne : (b1.take l1).drop k with _ | ⟨x, t⟩
      · have hlen := congrArg List.length hne
        simp at hlen
        omega
      · rw [hd2]
        rfl
    · have hd1 : (b1.take l1).drop k = [] :=
        List.drop_eq_nil_of_le (by simp; omega)
      rw [if_neg (by omega), hd1, hd2]
      rfl
  | succ n ih =>
    intro k hn hk1 hk2
    have hk2' : k < l2 := by omega
    by_cases hkl1 : k < l1
    · rw [drop_take_cons b1 l1 k hkl1 h1, drop_take_cons b2 l2 k hk2' h2,
        compareLoop, if_pos ⟨hk2', hkl1, hk2', hkl1⟩]
      simp only [lexComp]
      by_cases hxy : b1.getD k 0 = b2.getD k 0
      · rw [if_neg (not_not_intro hxy), if_neg (not_not_intro hxy)]
        exact ih (k + 1) (by omega) (by omega) (by omega)
      · rw [if_pos hxy, if_pos hxy]
    · have hkl1' : k = l1 := by omega
      have hd1 : (b1.take l1).drop k = [] :=
        List.drop_eq_nil_of_le (by simp; omega)
      rcases hne : (b2.take l2).drop k with _ | ⟨y, t⟩
      · have hlen := congrArg List.length hne
        simp at hlen
        omega
      · rw [compareLoop, if_neg (by omega), if_pos (Or.inl hk2'), hd1]
        rfl

lemma compare_eq_lexComp (a b : DynamicBuffer)
    (ha : a.used ≤ a.buffer.length) (hb : b.used ≤ b.buffer.length) :
    a.compare b = lexComp (a.buffer.take a.used) (b.buffer.take b.used) := by
  unfold compare
  simpa using compareLoop_eq_lexComp a.buffer b.buffer a.used b.used ha hb
    b.used 0 (by omega) (by omega) (by omega)

end DynamicBuffer

/-- C7: with the default range arguments, `compare` is antisymmetric
(`a.compare(b) == -1` iff `b.compare(a) == 1`) and reflexive
(`a.compare(a) == 0`) on every pair of well-formed regions. -/
theorem C7_compare_antisymm_refl :
    ∀ a b : DynamicBuffer,
      a.used ≤ a.buffer.length → b.used ≤ b.buffer.length →
      ((a.compare b = -1 ↔ b.compare a = 1) ∧ a.compare a = 0) := by
  intro a b ha hb
  refine ⟨?_, ?_⟩
  · rw [DynamicBuffer.compare_eq_lexComp a b ha hb,
      DynamicBuffer.compare_eq_lexComp b a hb ha]
    exact DynamicBuffer.lexComp_antisymm _ _
  · rw [DynamicBuffer.compare_eq_lexComp a a ha ha]
    exact DynamicBuffer.lexComp_refl _

/-- Witness for C7: the 5-byte region compares equal to itself, and the
antisymmetry equivalence holds between it and the default region. -/
theorem C7_compare_antisymm_refl_witness :
    (s5.compare dflt = -1 ↔ dflt.compare s5 = 1) ∧ s5.compare s5 = 0 :=
  C7_compare_antisymm_refl s5 dflt (by decide) (by decide)

lemma calcOffsets_start_nonneg (s : DynamicBuffer) (a b : Option ℤ) :
    0 ≤ (s.calculateOffsets a b).1 := by
  unfold DynamicBuffer.calculateOffsets
  rcases a with _ | v <;> rcases b with _ | w <;> dsimp only <;>
    (try split_ifs) <;> omega

/-- C8: the code's `calculateOffsets` implements the spec's shared clamping
rule (start below 0 or unspecified → 0, start above `used` → `used`, end
unspecified or above `used` → `used`); whenever the resolved end does not
exceed the resolved start the exported string is empty; and on a region with
5 used bytes, exporting with start `-5` and end `1000` yields the same
result as exporting with start `0` and end `5`. -/
theorem C8_offset_clamping :
    (∀ (s : DynamicBuffer) (startOpt endOpt : Option ℤ),
      s.calculateOffsets startOpt endOpt =
        (specResolvedStart s.used startOpt, specResolvedEnd s.used endOpt)) ∧
    (∀ (s : DynamicBuffer) (startOpt endOpt : Option ℤ),
      (s.calculateOffsets startOpt endOpt).2 ≤
        (s.calculateOffsets startOpt endOpt).1 →
      s.toText startOpt endOpt = []) ∧
    (∀ s : DynamicBuffer, s.used = 5 →
      s.toText (some (-5)) (some 1000) = s.toText (some 0) (some 5)) := by
  refine ⟨?_, ?_, ?_⟩
  · intro s a b
    unfold DynamicBuffer.calculateOffsets specResolvedStart specResolvedEnd
    rcases a with _ | v <;> rcases b with _ | w <;>
      simp only [Prod.mk.injEq] <;> (try constructor) <;> (try split_ifs) <;>
      first
      | trivial
      | omega
  · intro s a b hle
    have h0 := calcOffsets_start_nonneg s a b
    unfold DynamicBuffer.toText
    dsimp only
    split_ifs with h1 h2
    · rfl
    · rfl
    · unfold DynamicBuffer.nodeToString
      apply List.drop_eq_nil_of_le
      simp only [List.length_take]
      omega
  · intro s h5
    unfold DynamicBuffer.toText DynamicBuffer.calculateOffsets
    rw [h5]
    norm_num

/-- Witness for C8: on the concrete 5-byte region the out-of-range export
`toText(-5, 1000)` equals the in-range export `toText(0, 5)`. -/
theorem C8_offset_clamping_witness :
    s5.toText (some (-5)) (some 1000) = s5.toText (some 0) (some 5) :=
  C8_offset_clamping.2.2 s5 (by decide)
